import Mathlib

/-!
Verification of the attendance middleware (Hikvision terminal bridge).

The definitions below are a shallow embedding of the repository's source
files, translated function by function:

* `hikvisionClient.js` — Digest-Auth helpers (`digestParam`,
  `buildDigestAuth`), event-log pagination (`getAttendanceEvents` with its
  `while` loop modelled by `paginate`), payload building (`buildPayload`,
  `stripTz`) and normalisation (`normalise`).
* `attendanceProcessor.js` — `parseDeviceTime`, `isTimeOut`,
  `processAttendance`, `syncToCloud` (retry loop modelled by
  `syncAttempts`).
* `deviceDiscovery.js` — `xmlField`, `normaliseDeviceInfo`, `probeDevice`
  (HTTP outcomes abstracted into an environment record), `isTargetDevice`.

JavaScript strings are modelled by `String` / `List Char`; the few JS
library primitives used by the source (`String.prototype.trim`,
`toLowerCase`, `includes`, lexicographic comparison) are re-implemented
explicitly (`jsTrim`, `jsToLower`, `jsIncludes`, `chListLe`) so that every
step is executable and kernel-checkable.  External effectful collaborators
(the HTTP stack, `crypto.createHash("md5")`, `JSON.parse`/`stringify`,
`xml2js`) are abstracted as explicit function parameters or environment
data, as is standard for a shallow embedding.
-/

/- ================================================================== -/
/-  JavaScript string primitives                                       -/
/- ================================================================== -/

/-- JS `String.prototype.trim`: drop whitespace from both ends. -/
def jsTrim (s : String) : String :=
  ⟨((s.data.dropWhile Char.isWhitespace).reverse.dropWhile Char.isWhitespace).reverse⟩

/-- JS `String.prototype.toLowerCase` (ASCII range, which is all the
source ever compares). -/
def jsToLower (s : String) : String :=
  ⟨s.data.map Char.toLower⟩

/-- JS `String.prototype.toUpperCase` (ASCII range). -/
def jsToUpper (s : String) : String :=
  ⟨s.data.map Char.toUpper⟩

/-- Does `cs` start with `pat`? (JS `String.prototype.startsWith`). -/
def startsWithChars : List Char → List Char → Bool
  | [], _ => true
  | _ :: _, [] => false
  | a :: as, b :: bs => a = b && startsWithChars as bs

/-- Does `pat` occur somewhere in `cs`? -/
def occursChars (pat : List Char) : List Char → Bool
  | [] => startsWithChars pat []
  | c :: cs => startsWithChars pat (c :: cs) || occursChars pat cs

/-- JS `s.includes(sub)`. -/
def jsIncludes (s sub : String) : Bool :=
  occursChars sub.data s.data

/-- Lexicographic comparison of char lists by code point; this is the
order JS string comparison (`localeCompare` on ASCII, `<`) induces. -/
def chListLe : List Char → List Char → Bool
  | [], _ => true
  | _ :: _, [] => false
  | a :: as, b :: bs =>
    if a.toNat < b.toNat then true
    else if b.toNat < a.toNat then false
    else chListLe as bs

/-- `jsLe a b` : `a ≤ b` in JS string order. -/
def jsLe (a b : String) : Bool :=
  chListLe a.data b.data

/- ================================================================== -/
/-  Digest-Auth helpers (hikvisionClient.js lines 28-78,               -/
/-  deviceDiscovery.js lines 59-93 — identical implementation)         -/
/- ================================================================== -/

/-- Try to match `key="([^"]+)"` at the head of `cs`; on success return
the captured group. -/
def tryQuotedAt (key : List Char) (cs : List Char) : Option (List Char) :=
  if startsWithChars key cs then
    match cs.drop key.length with
    | '=' :: '"' :: rest =>
      let cap := rest.takeWhile (· ≠ '"')
      if cap.isEmpty then none
      else if (rest.drop cap.length).head? = some '"' then some cap else none
    | _ => none
  else none

/-- Leftmost match of `key="([^"]+)"` in the header. -/
def findQuoted (key : List Char) : List Char → Option (List Char)
  | [] => none
  | c :: cs =>
    match tryQuotedAt key (c :: cs) with
    | some v => some v
    | none => findQuoted key cs

/-- Try to match `key=([^,\s]+)` at the head of `cs`. -/
def tryUnquotedAt (key : List Char) (cs : List Char) : Option (List Char) :=
  if startsWithChars key cs then
    match cs.drop key.length with
    | '=' :: rest =>
      let cap := rest.takeWhile (fun c => c ≠ ',' && !c.isWhitespace)
      if cap.isEmpty then none else some cap
    | _ => none
  else none

/-- Leftmost match of `key=([^,\s]+)` in the header. -/
def findUnquoted (key : List Char) : List Char → Option (List Char)
  | [] => none
  | c :: cs =>
    match tryUnquotedAt key (c :: cs) with
    | some v => some v
    | none => findUnquoted key cs

/-- `digestParam(header, key)`: quoted match first, then unquoted,
else `""`. -/
def digestParam (header key : String) : String :=
  match findQuoted key.data header.data with
  | some v => ⟨v⟩
  | none =>
    match findUnquoted key.data header.data with
    | some v => ⟨v⟩
    | none => ""

/-- `buildDigestAuth(method, uri, username, password, wwwAuthHeader)`.
`md5` abstracts `crypto.createHash("md5")...digest("hex")` and `cnonce`
the `crypto.randomBytes(8).toString("hex")` client nonce. -/
def buildDigestAuth (md5 : String → String) (cnonce : String)
    (method uri username password wwwAuthHeader : String) : String :=
  let realm := digestParam wwwAuthHeader "realm"
  let nonce := digestParam wwwAuthHeader "nonce"
  let qop := digestParam wwwAuthHeader "qop"
  let opaqueParam := digestParam wwwAuthHeader "opaque"
  let algo :=
    if digestParam wwwAuthHeader "algorithm" = "" then "MD5"
    else digestParam wwwAuthHeader "algorithm"
  let ha1 :=
    if jsToUpper algo = "MD5-SESS" then
      md5 (md5 (username ++ ":" ++ realm ++ ":" ++ password) ++ ":" ++ nonce ++ ":")
    else md5 (username ++ ":" ++ realm ++ ":" ++ password)
  let ha2 := md5 (jsToUpper method ++ ":" ++ uri)
  let nc := "00000001"
  let respAndExtras :=
    if qop = "auth" ∨ qop = "auth-int" then
      (md5 (ha1 ++ ":" ++ nonce ++ ":" ++ nc ++ ":" ++ cnonce ++ ":" ++ qop ++ ":" ++ ha2),
        ", qop=" ++ qop ++ ", nc=" ++ nc ++ ", cnonce=\"" ++ cnonce ++ "\"")
    else
      (md5 (ha1 ++ ":" ++ nonce ++ ":" ++ ha2), "")
  "Digest username=\"" ++ username ++ "\", realm=\"" ++ realm ++
    "\", nonce=\"" ++ nonce ++ "\", uri=\"" ++ uri ++
    "\", algorithm=" ++ algo ++ ", response=\"" ++ respAndExtras.1 ++ "\"" ++
    (if opaqueParam = "" then "" else ", opaque=\"" ++ opaqueParam ++ "\"") ++
    respAndExtras.2

/- ================================================================== -/
/-  Hikvision client (hikvisionClient.js)                              -/
/- ================================================================== -/

/-- One raw entry of the device's `AcsEvent.InfoList` (wire shape, every
field optional because firmware varies). -/
structure IsapiEvent where
  employeeNoString : Option String := none
  employeeNo : Option Nat := none
  name : Option String := none
  cardNo : Option String := none
  minor : Option Nat := none
  minorDesc : Option String := none
  inOutStatus : Option String := none
  time : Option String := none
  doorNo : Option Nat := none
  serialNo : Option String := none
deriving Repr, DecidableEq

/-- Normalised attendance record (`#normalise`'s output / the
`AttendanceRecord` typedef). -/
structure AttendanceRecord where
  employeeNo : String
  name : Option String := none
  cardNo : Option String := none
  eventType : Option Nat := none
  eventTypeName : Option String := none
  direction : Option String := none
  eventTime : Option String := none
  capturedAt : String := ""
  doorNo : Option Nat := none
  deviceSerial : Option String := none
  raw : IsapiEvent := {}
deriving Repr, DecidableEq

/-- `HikvisionClient.#normalise(raw)`.  `capturedAt` abstracts the
impure `new Date().toISOString()`. -/
def normalise (capturedAt : String) (raw : IsapiEvent) : AttendanceRecord :=
  { employeeNo :=
      match raw.employeeNoString with
      | some s => s
      | none =>
        match raw.employeeNo with
        | some n => toString n
        | none => ""
    name := raw.name
    cardNo := raw.cardNo
    eventType := raw.minor
    eventTypeName := raw.minorDesc
    direction := raw.inOutStatus
    eventTime := raw.time
    capturedAt := capturedAt
    doorNo := raw.doorNo
    deviceSerial := raw.serialNo
    raw := raw }

/-- Does this 6-char suffix match `\+\d{2}:\d{2}`? -/
def plusOffset6 : List Char → Bool
  | [a, b, c, d, e, f] =>
    a = '+' && b.isDigit && c.isDigit && d = ':' && e.isDigit && f.isDigit
  | _ => false

/-- `HikvisionClient.#stripTz(dt)`:
`dt.replace(/Z$/, "").replace(/\+\d{2}:\d{2}$/, "").split(".")[0]`.
Note the second regex only strips a *plus* offset. -/
def stripTz (dt : String) : String :=
  let s1 := if dt.data.getLast? = some 'Z' then dt.data.dropLast else dt.data
  let s2 := if plusOffset6 (s1.drop (s1.length - 6)) then s1.take (s1.length - 6) else s1
  ⟨s2.takeWhile (· ≠ '.')⟩

/-- The `AcsEventCond` JSON body sent to the event-log endpoint. -/
structure AcsEventCond where
  searchID : String
  searchResultPosition : Nat
  maxResults : Nat
  major : Nat
  minor : Nat
  startTime : String
  endTime : String
deriving Repr, DecidableEq

/-- `buildPayload(searchResultPosition)` inside `getAttendanceEvents`. -/
def buildPayload (startTime endTime : String) (maxResults : Nat)
    (searchResultPosition : Nat) : AcsEventCond :=
  { searchID := "1"
    searchResultPosition := searchResultPosition
    maxResults := maxResults
    major := 0
    minor := 0
    startTime := stripTz startTime
    endTime := stripTz endTime }

/-- The `AcsEvent` object of a device response (fields optional: the
source reads them with `?.` and `??` defaults). -/
structure AcsEventBody where
  totalMatches : Option Nat := none
  infoList : Option (List IsapiEvent) := none

/-- A device response to one event-log request. -/
structure AcsResponse where
  acsEvent : Option AcsEventBody := none

/-- `page?.AcsEvent?.totalMatches ?? 0`. -/
def totalOf (r : AcsResponse) : Nat :=
  (r.acsEvent.bind (·.totalMatches)).getD 0

/-- `page?.AcsEvent?.InfoList ?? []`. -/
def listOf (r : AcsResponse) : List IsapiEvent :=
  (r.acsEvent.bind (·.infoList)).getD []

/-- The `while (events.length < total)` pagination loop of
`getAttendanceEvents`: request the next page at offset `events.length`,
stop on an empty batch, otherwise append and continue.  `device` maps a
request body to the device's response (the body is the only varying
input of the POST). -/
def paginate (device : AcsEventCond → AcsResponse) (payload : Nat → AcsEventCond)
    (total : Nat) (events : List IsapiEvent) : List IsapiEvent :=
  if h1 : events.length < total then
    if h2 : (listOf (device (payload events.length))).isEmpty then events
    else paginate device payload total (events ++ listOf (device (payload events.length)))
  else events
termination_by total - events.length
decreasing_by
  have hb : listOf (device (payload events.length)) ≠ [] := by
    intro h
    rw [h] at h2
    exact h2 rfl
  have hlen : 0 < (listOf (device (payload events.length))).length :=
    List.length_pos.mpr hb
  simp only [List.length_append]
  omega

/-- Fuel-indexed version of the pagination loop: `none` means the fuel
ran out before the loop finished.  Used to state the termination bound. -/
def paginateFuel (fuel : Nat) (device : AcsEventCond → AcsResponse)
    (payload : Nat → AcsEventCond) (total : Nat) (events : List IsapiEvent) :
    Option (List IsapiEvent) :=
  match fuel with
  | 0 => none
  | f + 1 =>
    if events.length < total then
      if (listOf (device (payload events.length))).isEmpty then some events
      else paginateFuel f device payload total
        (events ++ listOf (device (payload events.length)))
    else some events

/-- `HikvisionClient.getAttendanceEvents(opts)` with the two-step Digest
request abstracted into `device`: the function from request body to
response.  Returns `.error` when `startTime`/`endTime` is missing
(the JS `throw`). -/
def getAttendanceEvents (device : AcsEventCond → AcsResponse)
    (startTime endTime : String) (maxResults : Nat) (allPages : Bool)
    (capturedAt : String) : Except String (List AttendanceRecord) :=
  if startTime = "" ∨ endTime = "" then
    .error "`startTime` and `endTime` are required (YYYY-MM-DDTHH:mm:ss)."
  else
    let payload := buildPayload startTime endTime maxResults
    let first := device (payload 0)
    let total := totalOf first
    let events := listOf first
    let events :=
      if allPages && decide (events.length < total) then
        paginate device payload total events
      else events
    .ok (events.map (normalise capturedAt))

/- ================================================================== -/
/-  Attendance processor (attendanceProcessor.js)                      -/
/- ================================================================== -/

/-- Result of `parseDeviceTime`: `{ h, m, s, raw: "HH:MM:SS" }`. -/
structure DeviceTime where
  h : Nat
  m : Nat
  s : Nat
  raw : String
deriving Repr, DecidableEq

/-- Does this 6-char suffix match `[+-]\d{2}:\d{2}`? -/
def pmOffset6 : List Char → Bool
  | [a, b, c, d, e, f] =>
    (a = '+' || a = '-') && b.isDigit && c.isDigit && d = ':' && e.isDigit && f.isDigit
  | _ => false

/-- The timezone strip inside `parseDeviceTime`:
`isoString.replace(/Z$/, "").replace(/[+-]\d{2}:\d{2}$/, "")`. -/
def stripTzBoth (cs : List Char) : List Char :=
  let s1 := if cs.getLast? = some 'Z' then cs.dropLast else cs
  if pmOffset6 (s1.drop (s1.length - 6)) then s1.take (s1.length - 6) else s1

/-- Try to match `T(\d{2}):(\d{2}):(\d{2})` at the head of `cs`. -/
def tryTimeAt : List Char → Option (Char × Char × Char × Char × Char × Char)
  | 'T' :: a :: b :: ':' :: c :: d :: ':' :: e :: f :: _ =>
    if a.isDigit && b.isDigit && c.isDigit && d.isDigit && e.isDigit && f.isDigit then
      some (a, b, c, d, e, f)
    else none
  | _ => none

/-- Leftmost match of `T(\d{2}):(\d{2}):(\d{2})` in `cs`. -/
def findTime : List Char → Option (Char × Char × Char × Char × Char × Char)
  | [] => none
  | c :: cs =>
    match tryTimeAt (c :: cs) with
    | some r => some r
    | none => findTime cs

/-- `parseInt` of a two-digit capture group. -/
def digit2 (a b : Char) : Nat :=
  (a.toNat - 48) * 10 + (b.toNat - 48)

/-- `parseDeviceTime(isoString)`: strip the timezone, find the first
`T HH:MM:SS` pattern, return hour/minute/second plus the `"HH:MM:SS"`
string, or `null`.  The argument is `Option` because the caller passes
`eventTime` which may be `null` (JS: falsy check also rejects `""`). -/
def parseDeviceTime (isoString : Option String) : Option DeviceTime :=
  match isoString with
  | none => none
  | some s =>
    if s = "" then none
    else
      match findTime (stripTzBoth s.data) with
      | none => none
      | some (a, b, c, d, e, f) =>
        some { h := digit2 a b
               m := digit2 c d
               s := digit2 e f
               raw := ⟨[a, b, ':', c, d, ':', e, f]⟩ }

/-- `isTimeOut(t)` against the configured threshold (`TIMEOUT_HOUR`,
`TIMEOUT_MINUTE`, parameters here because they come from the
environment). -/
def isTimeOut (timeoutHour timeoutMinute : Nat) (t : DeviceTime) : Bool :=
  if timeoutHour < t.h then true
  else if t.h = timeoutHour && timeoutMinute ≤ t.m then true
  else false

/-- The sort relation used by the JS comparator
`compareTimeStrings(a.time.raw, b.time.raw)` (ascending `.sort`). -/
def rawLe (a b : DeviceTime) : Prop := jsLe a.raw b.raw = true

instance : DecidableRel rawLe := fun a b => by
  unfold rawLe
  infer_instance

/-- One output record (`ProcessedAttendance` typedef): `time_out` is
omitted (`Option.none`) when no post-threshold event exists. -/
structure ProcessedAttendance where
  adm_no : String
  time_in : String
  time_out : Option String
deriving Repr, DecidableEq

/-- Filter step 1 of `processAttendance`: keep records whose
`employeeNo` trims to something other than `""` and `"0"`. -/
def validRecords (records : List AttendanceRecord) : List AttendanceRecord :=
  records.filter fun r => jsTrim r.employeeNo ≠ "" && jsTrim r.employeeNo ≠ "0"

/-- Keys of a JS `Map` built by insertion, first-occurrence order, no
duplicates: `seen` accumulates the keys already emitted. -/
def firstKeysAux (seen : List String) : List String → List String
  | [] => []
  | x :: xs =>
    if x ∈ seen then firstKeysAux seen xs
    else x :: firstKeysAux (x :: seen) xs

/-- Keys of a JS `Map` built by insertion: first-occurrence order,
no duplicates. -/
def firstKeys (l : List String) : List String :=
  firstKeysAux [] l

/-- The per-student collapse inside `processAttendance`'s `for` loop:
parse, drop unparseable, sort chronologically, take first as `time_in`
and last post-threshold as `time_out`. -/
def collapseGroup (timeoutHour timeoutMinute : Nat) (adm_no : String)
    (events : List AttendanceRecord) : Option ProcessedAttendance :=
  let sorted :=
    List.insertionSort rawLe (events.filterMap fun e => parseDeviceTime e.eventTime)
  match sorted with
  | [] => none
  | t0 :: rest =>
    let postThreshold :=
      (t0 :: rest).filter fun x => isTimeOut timeoutHour timeoutMinute x
    some { adm_no := adm_no
           time_in := t0.raw
           time_out := postThreshold.getLast?.map DeviceTime.raw }

/-- `processAttendance(records)`: filter, group by trimmed
`employeeNo` (insertion order), collapse each group. -/
def processAttendance (timeoutHour timeoutMinute : Nat)
    (records : List AttendanceRecord) : List ProcessedAttendance :=
  let valid := validRecords records
  (firstKeys (valid.map fun r => jsTrim r.employeeNo)).filterMap fun adm_no =>
    collapseGroup timeoutHour timeoutMinute adm_no
      (valid.filter fun r => jsTrim r.employeeNo = adm_no)

/-- The parseable times of one person's retained events — the list the
spec's invariants quantify over. -/
def personTimes (records : List AttendanceRecord) (id : String) : List DeviceTime :=
  ((validRecords records).filter fun r => jsTrim r.employeeNo = id).filterMap
    fun e => parseDeviceTime e.eventTime

/- ================================================================== -/
/-  Cloud sync (attendanceProcessor.js syncToCloud)                    -/
/- ================================================================== -/

/-- An HTTP response as `axios` exposes it (`status`, `data`; the body
is abstracted as a string, possibly absent). -/
structure CloudResponse where
  status : Nat
  data : Option String := none
deriving Repr, DecidableEq

/-- An `axios` rejection: `response` is `none` for network-level errors
(no HTTP response at all). -/
structure AxiosError where
  response : Option CloudResponse := none
deriving Repr, DecidableEq

/-- Outcome of one `axios.post` attempt.  `axios`'s default
`validateStatus` resolves only 2xx responses; everything else rejects
with an `AxiosError`. -/
inductive AttemptOutcome where
  | ok (res : CloudResponse)
  | err (e : AxiosError)
deriving Repr, DecidableEq

/-- Result object of `syncToCloud`. -/
structure SyncResult where
  success : Bool
  sent : Nat
  response : Option String
deriving Repr, DecidableEq

/-- `err.response?.status >= 400 && err.response?.status < 500`. -/
def is4xx (e : AxiosError) : Bool :=
  match e.response with
  | some r => decide (400 ≤ r.status) && decide (r.status < 500)
  | none => false

/-- `err.response?.data ?? null` — the body attached to a failure. -/
def errBody (e : AxiosError) : Option String :=
  e.response.bind (·.data)

/-- The retry loop of `syncToCloud`, starting at attempt number
`attempt` (1-based).  `outcomes` maps each attempt number to what
`axios.post` does on that attempt.  Returns the result together with
the number of the last attempt actually made (0 if none ran). -/
def syncAttempts (outcomes : Nat → AttemptOutcome) (retryAttempts count attempt : Nat)
    (lastError : Option AxiosError) : SyncResult × Nat :=
  if attempt ≤ retryAttempts then
    match outcomes attempt with
    | .ok res => (⟨true, count, res.data⟩, attempt)
    | .err e =>
      if is4xx e then (⟨false, 0, errBody e⟩, attempt)
      else if attempt = retryAttempts then (⟨false, 0, errBody e⟩, attempt)
      else syncAttempts outcomes retryAttempts count (attempt + 1) (some e)
  else (⟨false, 0, lastError.bind errBody⟩, attempt - 1)
termination_by retryAttempts + 1 - attempt

/-- `syncToCloud(attendance, date)` with the network abstracted into
`outcomes`.  Empty input short-circuits to success without any attempt. -/
def syncToCloud (outcomes : Nat → AttemptOutcome) (retryAttempts : Nat)
    (attendance : List ProcessedAttendance) : SyncResult × Nat :=
  if attendance.isEmpty then (⟨true, 0, none⟩, 0)
  else syncAttempts outcomes retryAttempts attendance.length 1 none

/- ================================================================== -/
/-  Device discovery (deviceDiscovery.js)                              -/
/- ================================================================== -/

/-- The identity fields a device-info body may carry, in both casings
the firmware uses. -/
structure DeviceInfoFields where
  deviceName : Option String := none
  DeviceName : Option String := none
  model : Option String := none
  Model : Option String := none
  serialNumber : Option String := none
  SerialNumber : Option String := none
  firmwareVersion : Option String := none
  FirmwareVersion : Option String := none
  macAddress : Option String := none
  MacAddress : Option String := none
deriving Repr, DecidableEq

/-- A decoded JSON device-info document: either nested under a
`DeviceInfo` wrapper key or flat (`obj?.DeviceInfo ?? obj`). -/
structure DeviceJson where
  deviceInfoKey : Option DeviceInfoFields := none
  fields : DeviceInfoFields := {}
deriving Repr, DecidableEq

/-- The `_raw` payload kept on a normalised identity: the original
parsed object, or the raw XML text in the regex-fallback path. -/
inductive RawPayload where
  | obj (o : DeviceInfoFields)
  | str (s : String)
deriving Repr, DecidableEq

/-- JS truthiness of `info._raw` (an object is truthy, a string is
truthy iff non-empty). -/
def rawTruthy : RawPayload → Bool
  | .obj _ => true
  | .str s => s ≠ ""

/-- The string `isTargetDevice` searches: the raw string itself, or
`JSON.stringify` of the object — `stringify` abstracts the JSON
serialiser. -/
def rawString (stringify : DeviceInfoFields → String) : RawPayload → String
  | .obj o => stringify o
  | .str s => s

/-- A normalised device identity (`normaliseDeviceInfo`'s output). -/
structure DeviceInfo where
  deviceName : Option String := none
  model : Option String := none
  serialNumber : Option String := none
  firmwareVersion : Option String := none
  macAddress : Option String := none
  raw : RawPayload := .str ""
deriving Repr, DecidableEq

/-- `xmlField(xml, tag)` tried at one position: match
`<tag[^>]*>([^<]+)</tag>` (case-insensitive) anchored here. -/
def tryXmlFieldAt (tag : List Char) (cs : List Char) : Option (List Char) :=
  match cs with
  | '<' :: rest =>
    if startsWithChars (tag.map Char.toLower) (rest.map Char.toLower) then
      let afterTag := rest.drop tag.length
      let attrs := afterTag.takeWhile (· ≠ '>')
      match afterTag.drop attrs.length with
      | '>' :: rest2 =>
        let body := rest2.takeWhile (· ≠ '<')
        if body.isEmpty then none
        else
          match rest2.drop body.length with
          | '<' :: '/' :: rest3 =>
            if startsWithChars (tag.map Char.toLower) (rest3.map Char.toLower)
                && (rest3.drop tag.length).head? = some '>' then
              some body
            else none
          | _ => none
      | _ => none
    else none
  | _ => none

/-- Leftmost match for `xmlField`'s regex. -/
def findXmlField (tag : List Char) : List Char → Option (List Char)
  | [] => none
  | c :: cs =>
    match tryXmlFieldAt tag (c :: cs) with
    | some v => some v
    | none => findXmlField tag cs

/-- `xmlField(xml, tag)`: regex extraction with `m[1].trim()`. -/
def xmlField (xml : String) (tag : String) : Option String :=
  (findXmlField tag.data xml.data).map fun v => jsTrim ⟨v⟩

/-- A response body as the probe sees it: already-decoded JSON object,
or raw text.  For text, `jsonParsed` carries what `JSON.parse` would
yield (`none` = `JSON.parse` throws) — the parser itself is an external
library. -/
inductive BodyData where
  | obj (o : DeviceJson)
  | str (s : String) (jsonParsed : Option DeviceJson)
deriving Repr, DecidableEq

/-- Errors the JS code can `throw` inside a probe attempt. -/
inductive ProbeError where
  | transport
  | jsonParse
deriving Repr, DecidableEq

/-- `info.deviceName ?? info.DeviceName ?? null` etc. -/
def fieldsOfJson (i : DeviceInfoFields) : DeviceInfo :=
  { deviceName := i.deviceName <|> i.DeviceName
    model := i.model <|> i.Model
    serialNumber := i.serialNumber <|> i.SerialNumber
    firmwareVersion := i.firmwareVersion <|> i.FirmwareVersion
    macAddress := i.macAddress <|> i.MacAddress
    raw := .obj i }

/-- `normaliseDeviceInfo(data, contentType)`.  `parseXml` is the
optional `xml2js` parser (`none` = not installed; `some f` returning
`.error` = its promise rejected).  `JSON.parse` failure is an exception
(`.error .jsonParse`), caught by `probeDevice`'s `catch`. -/
def normaliseDeviceInfo (parseXml : Option (String → Except Unit DeviceInfoFields))
    (data : BodyData) (contentType : Option String) :
    Except ProbeError (Option DeviceInfo) :=
  let ct := jsToLower (contentType.getD "")
  if jsIncludes ct "json" || (match data with | .obj _ => true | .str _ _ => false) then
    match data with
    | .obj o => .ok (some (fieldsOfJson (o.deviceInfoKey.getD o.fields)))
    | .str _ parsed =>
      match parsed with
      | none => .error .jsonParse
      | some o => .ok (some (fieldsOfJson (o.deviceInfoKey.getD o.fields)))
  else
    match data with
    | .obj _ => .ok none
    | .str s _ =>
      if !(startsWithChars "<".data (jsTrim s).data) then .ok none
      else
        let structured :=
          match parseXml with
          | none => none
          | some f =>
            match f s with
            | .error _ => none
            | .ok i =>
              some { deviceName := i.deviceName, model := i.model
                     serialNumber := i.serialNumber
                     firmwareVersion := i.firmwareVersion
                     macAddress := i.macAddress, raw := RawPayload.obj i }
        let parsed :=
          match structured with
          | some p => p
          | none =>
            { deviceName := xmlField s "deviceName", model := xmlField s "model"
              serialNumber := xmlField s "serialNumber"
              firmwareVersion := xmlField s "firmwareVersion"
              macAddress := xmlField s "macAddress", raw := RawPayload.str s }
        let hasData :=
          parsed.deviceName.isSome || parsed.model.isSome ||
            parsed.serialNumber.isSome || parsed.firmwareVersion.isSome ||
            parsed.macAddress.isSome
        if hasData then .ok (some parsed) else .ok none

/-- What one HTTP GET does: reject (`exn` — host unreachable, timeout,
TLS failure, or a ≥ 500 status, which `validateStatus: s < 500` turns
into a rejection), or resolve with status, `WWW-Authenticate` header,
`Content-Type` header and body. -/
inductive ReqOutcome where
  | exn
  | res (status : Nat) (wwwAuthenticate : Option String)
      (contentType : Option String) (body : BodyData)

/-- The network environment of one `probeDevice` call: outcomes for the
unauthenticated and authenticated requests of both attempts
(`?format=json` first, plain XML second). -/
structure ProbeEnv where
  json1 : ReqOutcome
  json2 : ReqOutcome
  xml1 : ReqOutcome
  xml2 : ReqOutcome

/-- The body of one `for`-loop iteration (one attempt) in
`probeDevice`: the two-step unauthenticated → Digest exchange.
Exceptions propagate (`Except.error`): the JS `try` around this body is
modelled in `probeDevice` itself. -/
def probeAttempt (parseXml : Option (String → Except Unit DeviceInfoFields))
    (md5 : String → String) (cnonce username password : String) (reqPath : String)
    (step1 step2 : ReqOutcome) : Except ProbeError (Option DeviceInfo) :=
  match step1 with
  | .exn => .error .transport
  | .res status www _ _ =>
    if status ≠ 401 then .ok none
    else
      match www with
      | none => .ok none
      | some wwwAuth =>
        let _authHeader := buildDigestAuth md5 cnonce "GET" reqPath username password wwwAuth
        match step2 with
        | .exn => .error .transport
        | .res st2 _ ct2 body2 =>
          if st2 ≠ 200 then .ok none
          else normaliseDeviceInfo parseXml body2 ct2

/-- `probeDevice(ip, port, username, password, useHttps)`: try the two
request variants in order; each attempt's body sits inside
`try { ... } catch { /* skip */ }`, so an `Except.error` from
`probeAttempt` falls through to the next attempt; a parsed identity
returns immediately; otherwise `null`. -/
def probeDevice (parseXml : Option (String → Except Unit DeviceInfoFields))
    (md5 : String → String) (cnonce username password : String)
    (env : ProbeEnv) : Except ProbeError (Option DeviceInfo) :=
  match probeAttempt parseXml md5 cnonce username password
      "/ISAPI/System/deviceInfo?format=json" env.json1 env.json2 with
  | .ok (some info) => .ok (some info)
  | _ =>
    match probeAttempt parseXml md5 cnonce username password
        "/ISAPI/System/deviceInfo" env.xml1 env.xml2 with
    | .ok (some info) => .ok (some info)
    | _ => .ok none

/-- `isTargetDevice(info, targetName)`. -/
def isTargetDevice (stringify : DeviceInfoFields → String)
    (info : DeviceInfo) (targetName : String) : Bool :=
  if targetName = "" then false
  else
    let target := jsTrim (jsToLower targetName)
    let candidates :=
      (([info.deviceName, info.model, info.serialNumber, info.macAddress].filterMap id).filter
        (fun v => v ≠ "")).map fun v => jsTrim (jsToLower v)
    let fieldMatch :=
      candidates.any fun c => c = target || jsIncludes c target || jsIncludes target c
    if fieldMatch then true
    else if rawTruthy info.raw then
      jsIncludes (jsToLower (rawString stringify info.raw)) target
    else false

/- ================================================================== -/
/-  Claim-side formulations and concrete sample inputs                 -/
/- ================================================================== -/

/-- Concrete input shared by several witnesses: person "A" badges at
08:10:22 and again at 14:35:07 (the spec's own worked example). -/
def sampleRecords : List AttendanceRecord :=
  [{ employeeNo := "A", eventTime := some "2024-11-20T08:10:22" },
   { employeeNo := "A", eventTime := some "2024-11-20T14:35:07" }]

/-- A concrete event used by the pagination witnesses. -/
def sampleEvent : IsapiEvent :=
  { employeeNoString := some "A", time := some "2024-11-20T08:10:22" }

/-- Concrete payload builder for the pagination witnesses. -/
def samplePayloadFn : Nat → AcsEventCond :=
  buildPayload "2024-11-20T00:00:00" "2024-11-20T23:59:59" 100

/-- A device declaring 3 total matches that serves two entries at
offset 0 and nothing afterwards (a firmware that misreports its
total). -/
def sampleDevice : AcsEventCond → AcsResponse := fun c =>
  if c.searchResultPosition = 0 then
    { acsEvent := some { totalMatches := some 3, infoList := some [sampleEvent, sampleEvent] } }
  else
    { acsEvent := some { totalMatches := some 3, infoList := some [] } }

/-- A device that declares 2 total matches and serves both at offset 0
(well-behaved firmware). -/
def honestDevice : AcsEventCond → AcsResponse := fun c =>
  if c.searchResultPosition = 0 then
    { acsEvent := some { totalMatches := some 2, infoList := some [sampleEvent, sampleEvent] } }
  else
    { acsEvent := some { totalMatches := some 2, infoList := some [] } }

/-- A device whose first page declares `totalMatches = 1` yet carries
two entries. -/
def overfullDevice : AcsEventCond → AcsResponse := fun _ =>
  { acsEvent := some { totalMatches := some 1, infoList := some [sampleEvent, sampleEvent] } }

/-- A retryable failure: the attempt rejected and the rejection is not
a 4xx client error (network error or 5xx). -/
def retryableErr (o : AttemptOutcome) : Prop :=
  ∃ e, o = .err e ∧ is4xx e = false

/-- One processed record, for the dispatcher witnesses. -/
def sampleAttendance : List ProcessedAttendance :=
  [⟨"A", "08:10:22", some "14:35:07"⟩]

/-- Attempt 1 gets a 500, every later attempt succeeds with a 200. -/
def flaky50xOutcomes : Nat → AttemptOutcome := fun k =>
  if k = 1 then .err { response := some { status := 500, data := some "server error" } }
  else .ok { status := 200, data := some "ack" }

/-- Every attempt gets a 400 client error. -/
def clientErrorOutcomes : Nat → AttemptOutcome := fun _ =>
  .err { response := some { status := 400, data := some "bad request" } }

/-- The effective algorithm of a challenge:
`digestParam(header, "algorithm") || "MD5"`. -/
def algoOf (header : String) : String :=
  if digestParam header "algorithm" = "" then "MD5"
  else digestParam header "algorithm"

/-- HA1 as the claim states it: `MD5(username:realm:password)`, or the
session variant `MD5(MD5(username:realm:password):nonce:)` when the
algorithm is `MD5-sess`. -/
def ha1Of (md5 : String → String) (username password header : String) : String :=
  if jsToUpper (algoOf header) = "MD5-SESS" then
    md5 (md5 (username ++ ":" ++ digestParam header "realm" ++ ":" ++ password) ++ ":" ++
      digestParam header "nonce" ++ ":")
  else md5 (username ++ ":" ++ digestParam header "realm" ++ ":" ++ password)

/-- HA2 as the claim states it: `MD5(method:uri)` (method upper-cased). -/
def ha2Of (md5 : String → String) (method uri : String) : String :=
  md5 (jsToUpper method ++ ":" ++ uri)

/-- A challenge with `qop="auth"`, and one with no qop at all, for the
digest witnesses (`md5` instantiated with an explicit tagging function,
`cnonce` with `"CN"`). -/
def sampleChallengeQop : String :=
  "Digest realm=\"r\", nonce=\"n\", qop=\"auth\", opaque=\"op\""

/-- A challenge without any quality-of-protection value. -/
def sampleChallengeNoQop : String :=
  "Digest realm=\"r\", nonce=\"n\""

/-- A concrete normalised identity for the matching witness. -/
def sampleIdentity : DeviceInfo :=
  { model := some "DS-K1T342MFX-E1"
    raw := .str "<DeviceInfo><model>DS-K1T342MFX-E1</model></DeviceInfo>" }

/- ================================================================== -/
/-  Order properties of the JS string order                            -/
/- ================================================================== -/

theorem chListLe_refl : ∀ l : List Char, chListLe l l = true := by
  intro l
  induction l with
  | nil => rfl
  | cons a as ih => simp [chListLe, ih]

theorem chListLe_total : ∀ a b : List Char, chListLe a b = true ∨ chListLe b a = true := by
  intro a
  induction a with
  | nil => intro b; left; rfl
  | cons x xs ih =>
    intro b
    cases b with
    | nil => right; rfl
    | cons y ys =>
      by_cases h1 : x.toNat < y.toNat
      · left; simp [chListLe, h1]
      · by_cases h2 : y.toNat < x.toNat
        · right; simp [chListLe, h2]
        · rcases ih ys with h | h
          · left; simp [chListLe, h1, h2, h]
          · right; simp [chListLe, h1, h2, h]

theorem chListLe_trans : ∀ a b c : List Char,
    chListLe a b = true → chListLe b c = true → chListLe a c = true := by
  intro a
  induction a with
  | nil => intro b c _ _; rfl
  | cons x xs ih =>
    intro b c hab hbc
    cases b with
    | nil => simp [chListLe] at hab
    | cons y ys =>
      cases c with
      | nil => simp [chListLe] at hbc
      | cons z zs =>
        simp only [chListLe] at hab hbc ⊢
        by_cases hxy : x.toNat < y.toNat
        · by_cases hyz : y.toNat < z.toNat
          · have : x.toNat < z.toNat := Nat.lt_trans hxy hyz
            simp [this]
          · by_cases hzy : z.toNat < y.toNat
            · simp [hxy, hyz, hzy] at hbc
            · have hyzeq : y.toNat = z.toNat := Nat.le_antisymm (Nat.le_of_not_lt hzy) (Nat.le_of_not_lt hyz)
              have : x.toNat < z.toNat := hyzeq ▸ hxy
              simp [this]
        · by_cases hyx : y.toNat < x.toNat
          · simp [hxy, hyx] at hab
          · have hxyeq : x.toNat = y.toNat := Nat.le_antisymm (Nat.le_of_not_lt hyx) (Nat.le_of_not_lt hxy)
            by_cases hyz : y.toNat < z.toNat
            · have : x.toNat < z.toNat := hxyeq ▸ hyz
              simp [this]
            · by_cases hzy : z.toNat < y.toNat
              · simp [hxy, hyx, hyz, hzy] at hbc
              · simp only [hxy, hyx, if_false] at hab
                simp only [hyz, hzy, if_false] at hbc
                have hxz : ¬ x.toNat < z.toNat := by omega
                have hzx : ¬ z.toNat < x.toNat := by omega
                simp [hxz, hzx, ih ys zs hab hbc]

theorem jsLe_refl (s : String) : jsLe s s = true :=
  chListLe_refl s.data

theorem jsLe_total (a b : String) : jsLe a b = true ∨ jsLe b a = true :=
  chListLe_total a.data b.data

theorem jsLe_trans {a b c : String} (h1 : jsLe a b = true) (h2 : jsLe b c = true) :
    jsLe a c = true :=
  chListLe_trans a.data b.data c.data h1 h2

instance : IsTotal DeviceTime rawLe := ⟨fun a b => jsLe_total a.raw b.raw⟩

instance : IsTrans DeviceTime rawLe := ⟨fun _ _ _ => jsLe_trans⟩

theorem rawLe_refl (t : DeviceTime) : rawLe t t := jsLe_refl t.raw

/- ================================================================== -/
/-  Generic list helpers                                               -/
/- ================================================================== -/

theorem mem_of_getLast?_eq_some {α : Type} {l : List α} {b : α}
    (h : l.getLast? = some b) : b ∈ l := by
  induction l with
  | nil => simp at h
  | cons a t ih =>
    cases t with
    | nil =>
      simp only [List.getLast?_singleton, Option.some.injEq] at h
      simp [h]
    | cons c u =>
      rw [List.getLast?_cons_cons] at h
      exact List.mem_cons_of_mem a (ih h)

theorem getLast?_ne_none_cons {α : Type} :
    ∀ (t : List α) (a : α), (a :: t).getLast? ≠ none := by
  intro t
  induction t with
  | nil => intro a; simp
  | cons c u ih =>
    intro a
    rw [List.getLast?_cons_cons]
    exact ih c

theorem getLast?_eq_none_iff_nil {α : Type} {l : List α} :
    l.getLast? = none ↔ l = [] := by
  cases l with
  | nil => simp
  | cons a t =>
    constructor
    · intro h
      exact absurd h (getLast?_ne_none_cons t a)
    · intro h; simp at h

/-- In a `Pairwise r` list with `r` reflexive on its members, the last
element is an upper bound. -/
theorem pairwise_rel_getLast {α : Type} {r : α → α → Prop} {l : List α} {b : α}
    (hrefl : ∀ a ∈ l, r a a) (hp : l.Pairwise r) (hb : l.getLast? = some b) :
    ∀ a ∈ l, r a b := by
  induction l with
  | nil => simp at hb
  | cons x t ih =>
    cases t with
    | nil =>
      simp only [List.getLast?_singleton, Option.some.injEq] at hb
      intro a ha
      simp only [List.mem_singleton] at ha
      subst ha; subst hb
      exact hrefl a (by simp)
    | cons y u =>
      rw [List.getLast?_cons_cons] at hb
      have hbmem : b ∈ y :: u := mem_of_getLast?_eq_some hb
      intro a ha
      rcases List.mem_cons.mp ha with rfl | hat
      · exact (List.pairwise_cons.mp hp).1 b hbmem
      · exact ih (fun c hc => hrefl c (List.mem_cons_of_mem x hc))
          (List.pairwise_cons.mp hp).2 hb a hat

/-- In a `Pairwise r` list with `r` reflexive on its members, the head
is a lower bound. -/
theorem pairwise_rel_head {α : Type} {r : α → α → Prop} {t0 : α} {rest : List α}
    (hrefl : ∀ a ∈ t0 :: rest, r a a) (hp : (t0 :: rest).Pairwise r) :
    ∀ a ∈ t0 :: rest, r t0 a := by
  intro a ha
  rcases List.mem_cons.mp ha with rfl | hat
  · exact hrefl a (by simp)
  · exact (List.pairwise_cons.mp hp).1 a hat

/- ================================================================== -/
/-  Structure of processAttendance's output                            -/
/- ================================================================== -/

theorem mem_firstKeysAux :
    ∀ (l seen : List String) (x : String), x ∈ firstKeysAux seen l → x ∈ l := by
  intro l
  induction l with
  | nil => intro seen x h; simp [firstKeysAux] at h
  | cons y ys ih =>
    intro seen x h
    unfold firstKeysAux at h
    by_cases hs : y ∈ seen
    · rw [if_pos hs] at h
      exact List.mem_cons_of_mem y (ih seen x h)
    · rw [if_neg hs] at h
      rcases List.mem_cons.mp h with rfl | h2
      · simp
      · exact List.mem_cons_of_mem y (ih (y :: seen) x h2)

theorem mem_firstKeys {l : List String} {x : String} (h : x ∈ firstKeys l) : x ∈ l :=
  mem_firstKeysAux l [] x h

/-- Dissection of one output record of `processAttendance`: its
`adm_no` comes from a retained record, its `time_in` is the head and
its `time_out` the last post-threshold element of the sorted parsed
times of that person. -/
theorem mem_processAttendance {timeoutHour timeoutMinute : Nat}
    {records : List AttendanceRecord} {p : ProcessedAttendance}
    (hp : p ∈ processAttendance timeoutHour timeoutMinute records) :
    (∃ r ∈ validRecords records, jsTrim r.employeeNo = p.adm_no) ∧
    ∃ t0 rest,
      List.insertionSort rawLe (personTimes records p.adm_no) = t0 :: rest ∧
      p.time_in = t0.raw ∧
      p.time_out =
        ((t0 :: rest).filter fun x =>
          isTimeOut timeoutHour timeoutMinute x).getLast?.map DeviceTime.raw := by
  unfold processAttendance at hp
  rw [List.mem_filterMap] at hp
  obtain ⟨adm, hadm, hcol⟩ := hp
  have hadm2 : adm ∈ (validRecords records).map fun r => jsTrim r.employeeNo :=
    mem_firstKeys hadm
  rw [List.mem_map] at hadm2
  obtain ⟨r, hr, hrt⟩ := hadm2
  unfold collapseGroup at hcol
  rcases hsort :
      List.insertionSort rawLe
        (((validRecords records).filter fun r => jsTrim r.employeeNo = adm).filterMap
          fun e => parseDeviceTime e.eventTime) with _ | ⟨t0, rest⟩
  · rw [hsort] at hcol
    simp at hcol
  · rw [hsort] at hcol
    simp only [Option.some.injEq] at hcol
    have hadm' : p.adm_no = adm := by rw [← hcol]
    constructor
    · exact ⟨r, hr, by rw [hrt, hadm']⟩
    · refine ⟨t0, rest, ?_, ?_, ?_⟩
      · rw [hadm']
        unfold personTimes
        exact hsort
      · rw [← hcol]
      · rw [← hcol]

theorem isTimeOut_iff (timeoutHour timeoutMinute : Nat) (t : DeviceTime) :
    isTimeOut timeoutHour timeoutMinute t = true ↔
      (timeoutHour < t.h ∨ (t.h = timeoutHour ∧ timeoutMinute ≤ t.m)) := by
  unfold isTimeOut
  by_cases h1 : timeoutHour < t.h
  · simp [h1]
  · by_cases h2 : t.h = timeoutHour
    · by_cases h3 : timeoutMinute ≤ t.m
      · simp [h1, h2, h3]
      · simp [h1, h2, h3]
    · simp [h1, h2]

/-- **C2** — For every list of raw events and every configured threshold
(hour, minute), each record produced by `processAttendance` satisfies:
`time_in` equals the chronologically earliest parseable event time among
that person's retained events, and `time_out` is present if and only if
that person has a parseable event at or after the threshold (hour
strictly greater than the threshold hour, or equal hour with minute ≥
threshold minute), in which case `time_out` equals the chronologically
latest such event time. -/
theorem processAttendance_timeIn_earliest_timeOut_latest
    (timeoutHour timeoutMinute : Nat) (records : List AttendanceRecord)
    (p : ProcessedAttendance)
    (hp : p ∈ processAttendance timeoutHour timeoutMinute records) :
    ((∃ t ∈ personTimes records p.adm_no, t.raw = p.time_in) ∧
      ∀ t ∈ personTimes records p.adm_no, jsLe p.time_in t.raw = true) ∧
    (p.time_out.isSome ↔
      ∃ t ∈ personTimes records p.adm_no,
        timeoutHour < t.h ∨ (t.h = timeoutHour ∧ timeoutMinute ≤ t.m)) ∧
    (∀ τ, p.time_out = some τ →
      (∃ t ∈ personTimes records p.adm_no,
          (timeoutHour < t.h ∨ (t.h = timeoutHour ∧ timeoutMinute ≤ t.m)) ∧ t.raw = τ) ∧
      ∀ t ∈ personTimes records p.adm_no,
        (timeoutHour < t.h ∨ (t.h = timeoutHour ∧ timeoutMinute ≤ t.m)) →
          jsLe t.raw τ = true) := by
  obtain ⟨-, t0, rest, hsort, htin, htout⟩ := mem_processAttendance hp
  have hperm : List.Perm (List.insertionSort rawLe (personTimes records p.adm_no))
      (personTimes records p.adm_no) :=
    List.perm_insertionSort rawLe (personTimes records p.adm_no)
  rw [hsort] at hperm
  have hsorted : List.Pairwise rawLe (t0 :: rest) := by
    have := List.sorted_insertionSort rawLe (personTimes records p.adm_no)
    rw [hsort] at this
    exact this
  have hmem : ∀ a : DeviceTime, a ∈ t0 :: rest ↔ a ∈ personTimes records p.adm_no :=
    fun a => hperm.mem_iff
  refine ⟨⟨⟨t0, (hmem t0).mp (by simp), htin.symm⟩, ?_⟩, ?_, ?_⟩
  · intro t ht
    have h2 : t ∈ t0 :: rest := (hmem t).mpr ht
    have := pairwise_rel_head (fun a _ => rawLe_refl a) hsorted t h2
    rw [htin]
    exact this
  · rw [htout]
    rw [Option.isSome_map']
    constructor
    · intro hs
      obtain ⟨tl, htl⟩ := Option.isSome_iff_exists.mp hs
      have htlm := mem_of_getLast?_eq_some htl
      have := List.mem_filter.mp htlm
      exact ⟨tl, (hmem tl).mp this.1, (isTimeOut_iff _ _ tl).mp this.2⟩
    · intro ⟨t, ht, hth⟩
      have h2 : t ∈ (t0 :: rest).filter fun x => isTimeOut timeoutHour timeoutMinute x :=
        List.mem_filter.mpr ⟨(hmem t).mpr ht, (isTimeOut_iff _ _ t).mpr hth⟩
      rcases hgl : ((t0 :: rest).filter fun x =>
          isTimeOut timeoutHour timeoutMinute x).getLast? with _ | tl
      · rw [getLast?_eq_none_iff_nil] at hgl
        rw [hgl] at h2
        simp at h2
      · simp
  · intro τ hτ
    rw [htout] at hτ
    rw [Option.map_eq_some'] at hτ
    obtain ⟨tl, hgl, hraw⟩ := hτ
    have htlm := mem_of_getLast?_eq_some hgl
    have htlf := List.mem_filter.mp htlm
    have hpf : List.Pairwise rawLe
        ((t0 :: rest).filter fun x => isTimeOut timeoutHour timeoutMinute x) :=
      List.Pairwise.filter _ hsorted
    constructor
    · exact ⟨tl, (hmem tl).mp htlf.1, (isTimeOut_iff _ _ tl).mp htlf.2, hraw⟩
    · intro t ht hth
      have h2 : t ∈ (t0 :: rest).filter fun x => isTimeOut timeoutHour timeoutMinute x :=
        List.mem_filter.mpr ⟨(hmem t).mpr ht, (isTimeOut_iff _ _ t).mpr hth⟩
      have := pairwise_rel_getLast (fun a _ => rawLe_refl a) hpf hgl t h2
      rw [← hraw]
      exact this

theorem processAttendance_timeIn_earliest_timeOut_latest_witness :
    ((∃ t ∈ personTimes sampleRecords "A", t.raw = "08:10:22") ∧
      ∀ t ∈ personTimes sampleRecords "A", jsLe "08:10:22" t.raw = true) ∧
    ((some "14:35:07" : Option String).isSome ↔
      ∃ t ∈ personTimes sampleRecords "A", 14 < t.h ∨ (t.h = 14 ∧ 30 ≤ t.m)) ∧
    (∀ τ, (some "14:35:07" : Option String) = some τ →
      (∃ t ∈ personTimes sampleRecords "A",
          (14 < t.h ∨ (t.h = 14 ∧ 30 ≤ t.m)) ∧ t.raw = τ) ∧
      ∀ t ∈ personTimes sampleRecords "A",
        (14 < t.h ∨ (t.h = 14 ∧ 30 ≤ t.m)) → jsLe t.raw τ = true) :=
  processAttendance_timeIn_earliest_timeOut_latest 14 30 sampleRecords
    ⟨"A", "08:10:22", some "14:35:07"⟩ (by decide)

/-- **C10** — For every input list and every threshold, every record
returned by `processAttendance` that carries a `time_out` field
satisfies `time_in ≤ time_out` under the chronological (lexicographic
`"HH:MM:SS"`) order. -/
theorem processAttendance_timeIn_le_timeOut
    (timeoutHour timeoutMinute : Nat) (records : List AttendanceRecord)
    (p : ProcessedAttendance)
    (hp : p ∈ processAttendance timeoutHour timeoutMinute records)
    (τ : String) (hτ : p.time_out = some τ) :
    jsLe p.time_in τ = true := by
  obtain ⟨-, t0, rest, hsort, htin, htout⟩ := mem_processAttendance hp
  rw [htout] at hτ
  rw [Option.map_eq_some'] at hτ
  obtain ⟨tl, hgl, hraw⟩ := hτ
  have htlm := mem_of_getLast?_eq_some hgl
  have htlf := List.mem_filter.mp htlm
  have hsorted : List.Pairwise rawLe (t0 :: rest) := by
    have := List.sorted_insertionSort rawLe (personTimes records p.adm_no)
    rw [hsort] at this
    exact this
  have := pairwise_rel_head (fun a _ => rawLe_refl a) hsorted tl htlf.1
  rw [htin, ← hraw]
  exact this

theorem processAttendance_timeIn_le_timeOut_witness :
    jsLe "08:10:22" "14:35:07" = true :=
  processAttendance_timeIn_le_timeOut 14 30 sampleRecords
    ⟨"A", "08:10:22", some "14:35:07"⟩ (by decide) "14:35:07" rfl

/-- **C7** — For every input list, `processAttendance` discards every
event whose person identifier is empty or zero-equivalent before
grouping: no output record is produced from such events (every output's
`adm_no` is the trimmed identifier of some retained event, which is
neither `""` nor `"0"`), and an input consisting only of events with
`employeeNo "0"` yields the empty list. -/
theorem processAttendance_discards_invalid_ids
    (timeoutHour timeoutMinute : Nat) (records : List AttendanceRecord) :
    (∀ p ∈ processAttendance timeoutHour timeoutMinute records,
      p.adm_no ≠ "" ∧ p.adm_no ≠ "0" ∧
        ∃ r ∈ records, jsTrim r.employeeNo = p.adm_no) ∧
    ((∀ r ∈ records, r.employeeNo = "0") →
      processAttendance timeoutHour timeoutMinute records = []) := by
  constructor
  · intro p hp
    obtain ⟨⟨r, hr, hrt⟩, -⟩ := mem_processAttendance hp
    unfold validRecords at hr
    have := List.mem_filter.mp hr
    have hcond := this.2
    simp only [Bool.and_eq_true, decide_eq_true_eq] at hcond
    refine ⟨?_, ?_, r, this.1, hrt⟩
    · rw [← hrt]; exact hcond.1
    · rw [← hrt]; exact hcond.2
  · intro hall
    have h0 : validRecords records = [] := by
      unfold validRecords
      rw [List.filter_eq_nil_iff]
      intro r hr
      rw [hall r hr]
      decide
    unfold processAttendance
    rw [h0]
    simp [firstKeys, firstKeysAux]

theorem processAttendance_discards_invalid_ids_witness :
    ((⟨"A", "08:10:22", some "14:35:07"⟩ : ProcessedAttendance).adm_no ≠ "" ∧
      (⟨"A", "08:10:22", some "14:35:07"⟩ : ProcessedAttendance).adm_no ≠ "0" ∧
      ∃ r ∈ sampleRecords,
        jsTrim r.employeeNo =
          (⟨"A", "08:10:22", some "14:35:07"⟩ : ProcessedAttendance).adm_no) ∧
    processAttendance 14 30 [{ employeeNo := "0", eventTime := some "2024-11-20T09:00:00" }] = [] :=
  ⟨(processAttendance_discards_invalid_ids 14 30 sampleRecords).1
      ⟨"A", "08:10:22", some "14:35:07"⟩ (by decide),
    (processAttendance_discards_invalid_ids 14 30
      [{ employeeNo := "0", eventTime := some "2024-11-20T09:00:00" }]).2
      (by decide)⟩

/- ================================================================== -/
/-  Pagination lemmas                                                  -/
/- ================================================================== -/

theorem paginate_eq (device : AcsEventCond → AcsResponse) (payload : Nat → AcsEventCond)
    (total : Nat) (events : List IsapiEvent) :
    paginate device payload total events =
      if events.length < total then
        if (listOf (device (payload events.length))).isEmpty then events
        else paginate device payload total
          (events ++ listOf (device (payload events.length)))
      else events := by
  rw [paginate]
  simp only [dite_eq_ite]

theorem paginateFuel_sufficient :
    ∀ (fuel : Nat) (device : AcsEventCond → AcsResponse) (payload : Nat → AcsEventCond)
      (total : Nat) (events : List IsapiEvent),
      total - events.length < fuel →
      paginateFuel fuel device payload total events =
        some (paginate device payload total events) := by
  intro fuel
  induction fuel with
  | zero => intro _ _ _ _ h; omega
  | succ f ih =>
    intro device payload total events h
    rw [paginate_eq]
    unfold paginateFuel
    by_cases h1 : events.length < total
    · rw [if_pos h1, if_pos h1]
      by_cases h2 : (listOf (device (payload events.length))).isEmpty
      · rw [if_pos h2, if_pos h2]
      · rw [if_neg h2, if_neg h2]
        apply ih
        have hb : listOf (device (payload events.length)) ≠ [] := by
          intro hh
          rw [hh] at h2
          exact h2 rfl
        have := List.length_pos.mpr hb
        simp only [List.length_append]
        omega
    · rw [if_neg h1, if_neg h1]

theorem paginate_length_le_aux (device : AcsEventCond → AcsResponse)
    (payload : Nat → AcsEventCond) (total : Nat)
    (hpages : ∀ k, (listOf (device (payload k))).length ≤ total - k) :
    ∀ (n : Nat) (events : List IsapiEvent), total - events.length ≤ n →
      events.length ≤ total → (paginate device payload total events).length ≤ total := by
  intro n
  induction n with
  | zero =>
    intro events h0 hle
    rw [paginate_eq]
    have hnl : ¬ events.length < total := by omega
    rw [if_neg hnl]
    exact hle
  | succ n ih =>
    intro events h0 hle
    rw [paginate_eq]
    by_cases h1 : events.length < total
    · rw [if_pos h1]
      by_cases h2 : (listOf (device (payload events.length))).isEmpty
      · rw [if_pos h2]
        exact hle
      · rw [if_neg h2]
        have hb : listOf (device (payload events.length)) ≠ [] := by
          intro hh
          rw [hh] at h2
          exact h2 rfl
        have hbp := List.length_pos.mpr hb
        have hk := hpages events.length
        apply ih
        · simp only [List.length_append]
          omega
        · simp only [List.length_append]
          omega
    · rw [if_neg h1]
      exact hle

/-- **C4** — For every sequence of device page responses, the pagination
loop in `getAttendanceEvents` terminates (it finishes within
`total - collected + 1` iterations, witnessed by the fuel-indexed copy
of the loop succeeding on that much fuel, even when the firmware
misreports the total); it stops as soon as the running count reaches the
declared total or the next page is empty; and it requests the next page
using the running count of entries already received as the offset. -/
theorem paginate_terminates_and_resumes_from_count
    (device : AcsEventCond → AcsResponse) (payload : Nat → AcsEventCond)
    (total : Nat) (events : List IsapiEvent) :
    paginateFuel (total - events.length + 1) device payload total events =
      some (paginate device payload total events) ∧
    (total ≤ events.length → paginate device payload total events = events) ∧
    (events.length < total → listOf (device (payload events.length)) = [] →
      paginate device payload total events = events) ∧
    (events.length < total → listOf (device (payload events.length)) ≠ [] →
      paginate device payload total events =
        paginate device payload total
          (events ++ listOf (device (payload events.length)))) := by
  refine ⟨paginateFuel_sufficient _ device payload total events (by omega), ?_, ?_, ?_⟩
  · intro h
    rw [paginate_eq]
    rw [if_neg (by omega)]
  · intro h1 h2
    rw [paginate_eq, if_pos h1, if_pos (by rw [h2]; rfl)]
  · intro h1 h2
    rw [paginate_eq, if_pos h1]
    rw [if_neg (by simpa [List.isEmpty_iff] using h2)]

theorem paginate_terminates_and_resumes_from_count_witness :
    paginateFuel (3 - ([sampleEvent, sampleEvent] : List IsapiEvent).length + 1)
        sampleDevice samplePayloadFn 3 [sampleEvent, sampleEvent] =
      some (paginate sampleDevice samplePayloadFn 3 [sampleEvent, sampleEvent]) ∧
    paginate sampleDevice samplePayloadFn 3 [sampleEvent, sampleEvent, sampleEvent] =
      [sampleEvent, sampleEvent, sampleEvent] ∧
    paginate sampleDevice samplePayloadFn 3 [sampleEvent, sampleEvent] =
      [sampleEvent, sampleEvent] ∧
    paginate sampleDevice samplePayloadFn 3 [] =
      paginate sampleDevice samplePayloadFn 3
        ([] ++ listOf (sampleDevice (samplePayloadFn ([] : List IsapiEvent).length))) :=
  ⟨(paginate_terminates_and_resumes_from_count sampleDevice samplePayloadFn 3
      [sampleEvent, sampleEvent]).1,
    (paginate_terminates_and_resumes_from_count sampleDevice samplePayloadFn 3
      [sampleEvent, sampleEvent, sampleEvent]).2.1 (by decide),
    (paginate_terminates_and_resumes_from_count sampleDevice samplePayloadFn 3
      [sampleEvent, sampleEvent]).2.2.1 (by decide) (by decide),
    (paginate_terminates_and_resumes_from_count sampleDevice samplePayloadFn 3
      []).2.2.2 (by decide) (by decide)⟩

/-- **C1 (amended)** — For every time range and device page function,
`getAttendanceEvents` with fetch-all-pages enabled returns at most the
declared `totalMatches` records *provided* every page returned at
offset `k` contains at most `totalMatches - k` entries (i.e. the device
never serves entries past its own declared total).  Without that
proviso the count can exceed `totalMatches` (see the counterexample):
the loop only checks the running count before a request, so a page that
overshoots the shortfall is concatenated in full. -/
theorem getAttendanceEvents_count_le_total
    (device : AcsEventCond → AcsResponse) (startTime endTime : String)
    (maxResults : Nat) (capturedAt : String)
    (hs : startTime ≠ "") (he : endTime ≠ "")
    (hpages : ∀ k,
      (listOf (device (buildPayload startTime endTime maxResults k))).length ≤
        totalOf (device (buildPayload startTime endTime maxResults 0)) - k)
    (evs : List AttendanceRecord)
    (hev : getAttendanceEvents device startTime endTime maxResults true capturedAt = .ok evs) :
    evs.length ≤ totalOf (device (buildPayload startTime endTime maxResults 0)) := by
  unfold getAttendanceEvents at hev
  rw [if_neg (by push_neg; exact ⟨hs, he⟩)] at hev
  simp only [Except.ok.injEq] at hev
  subst hev
  rw [List.length_map]
  have h0 := hpages 0
  simp only [Nat.sub_zero] at h0
  by_cases hc :
      (listOf (device (buildPayload startTime endTime maxResults 0))).length <
        totalOf (device (buildPayload startTime endTime maxResults 0))
  · rw [if_pos (by simpa using hc)]
    exact paginate_length_le_aux device (buildPayload startTime endTime maxResults)
      (totalOf (device (buildPayload startTime endTime maxResults 0))) hpages
      _ _ le_rfl h0
  · rw [if_neg (by simpa using hc)]
    exact h0

theorem getAttendanceEvents_count_le_total_witness :
    ([normalise "" sampleEvent, normalise "" sampleEvent] : List AttendanceRecord).length ≤
      totalOf (honestDevice
        (buildPayload "2024-11-20T00:00:00" "2024-11-20T23:59:59" 100 0)) :=
  getAttendanceEvents_count_le_total honestDevice
    "2024-11-20T00:00:00" "2024-11-20T23:59:59" 100 ""
    (by decide) (by decide)
    (by
      intro k
      rcases k with _ | k
      · decide
      · simp [honestDevice, buildPayload, listOf, totalOf])
    [normalise "" sampleEvent, normalise "" sampleEvent] rfl

/-- **C1 (counterexample)** — with fetch-all-pages enabled, a first page
declaring `totalMatches = 1` but carrying 2 entries makes
`getAttendanceEvents` return 2 records: strictly more than the declared
`totalMatches`, refuting "never more than the declared totalMatches". -/
theorem getAttendanceEvents_exceeds_totalMatches_counterexample :
    totalOf (overfullDevice
      (buildPayload "2024-11-20T00:00:00" "2024-11-20T23:59:59" 100 0)) = 1 ∧
    getAttendanceEvents overfullDevice
        "2024-11-20T00:00:00" "2024-11-20T23:59:59" 100 true "" =
      .ok [normalise "" sampleEvent, normalise "" sampleEvent] ∧
    ¬ (([normalise "" sampleEvent, normalise "" sampleEvent] : List AttendanceRecord).length ≤
        totalOf (overfullDevice
          (buildPayload "2024-11-20T00:00:00" "2024-11-20T23:59:59" 100 0))) :=
  ⟨rfl, rfl, by decide⟩

/- ================================================================== -/
/-  Retry-loop lemmas                                                  -/
/- ================================================================== -/

theorem syncAttempts_eq (outcomes : Nat → AttemptOutcome)
    (retryAttempts count attempt : Nat) (lastError : Option AxiosError) :
    syncAttempts outcomes retryAttempts count attempt lastError =
      if attempt ≤ retryAttempts then
        match outcomes attempt with
        | .ok res => (⟨true, count, res.data⟩, attempt)
        | .err e =>
          if is4xx e then (⟨false, 0, errBody e⟩, attempt)
          else if attempt = retryAttempts then (⟨false, 0, errBody e⟩, attempt)
          else syncAttempts outcomes retryAttempts count (attempt + 1) (some e)
      else (⟨false, 0, lastError.bind errBody⟩, attempt - 1) := by
  rw [syncAttempts]

theorem syncAttempts_attempts_le (outcomes : Nat → AttemptOutcome) (count : Nat) :
    ∀ (gas retryAttempts attempt : Nat) (lastError : Option AxiosError),
      retryAttempts + 1 - attempt ≤ gas → attempt ≤ retryAttempts + 1 →
      (syncAttempts outcomes retryAttempts count attempt lastError).2 ≤ retryAttempts := by
  intro gas
  induction gas with
  | zero =>
    intro retryAttempts attempt le hgas hle
    have : attempt = retryAttempts + 1 := by omega
    rw [syncAttempts_eq, if_neg (by omega)]
    simp
    omega
  | succ g ih =>
    intro retryAttempts attempt le hgas hle
    rw [syncAttempts_eq]
    by_cases h1 : attempt ≤ retryAttempts
    · rw [if_pos h1]
      rcases ho : outcomes attempt with res | e
      · exact h1
      · by_cases h4 : is4xx e
        · simp only [h4, if_true]
          exact h1
        · by_cases hlast : attempt = retryAttempts
          · simp only [h4, Bool.false_eq_true, if_false, hlast, if_true]
            omega
          · simp only [h4, Bool.false_eq_true, if_false, hlast]
            exact ih retryAttempts (attempt + 1) (some e) (by omega) (by omega)
    · rw [if_neg h1]
      simp
      omega

/-- If every attempt before `k` fails retryably, the loop's result is
decided by what attempt `k` does. -/
theorem syncAttempts_first_decisive (outcomes : Nat → AttemptOutcome) (count : Nat) :
    ∀ (gas retryAttempts k attempt : Nat) (lastError : Option AxiosError),
      k - attempt ≤ gas → attempt ≤ k → k ≤ retryAttempts →
      (∀ j, attempt ≤ j → j < k → retryableErr (outcomes j)) →
      ((∀ res, outcomes k = .ok res →
          syncAttempts outcomes retryAttempts count attempt lastError =
            (⟨true, count, res.data⟩, k)) ∧
        (∀ e, outcomes k = .err e → is4xx e = true →
          syncAttempts outcomes retryAttempts count attempt lastError =
            (⟨false, 0, errBody e⟩, k)) ∧
        (∀ e, outcomes k = .err e → is4xx e = false → k = retryAttempts →
          syncAttempts outcomes retryAttempts count attempt lastError =
            (⟨false, 0, errBody e⟩, k))) := by
  intro gas
  induction gas with
  | zero =>
    intro retryAttempts k attempt le hgas hak hkn hretry
    have hak' : attempt = k := by omega
    subst hak'
    rw [syncAttempts_eq, if_pos (by omega)]
    refine ⟨?_, ?_, ?_⟩
    · intro res hres
      rw [hres]
    · intro e he h4
      rw [he]
      simp only [if_pos h4]
    · intro e he h4 hlast
      rw [he]
      simp only [h4, Bool.false_eq_true, if_false, if_pos hlast]
  | succ g ih =>
    intro retryAttempts k attempt le hgas hak hkn hretry
    by_cases hak' : attempt = k
    · subst hak'
      rw [syncAttempts_eq, if_pos (by omega)]
      refine ⟨?_, ?_, ?_⟩
      · intro res hres
        rw [hres]
      · intro e he h4
        rw [he]
        simp only [if_pos h4]
      · intro e he h4 hlast
        rw [he]
        simp only [h4, Bool.false_eq_true, if_false, if_pos hlast]
    · have hlt : attempt < k := by omega
      obtain ⟨e, he, h4⟩ := hretry attempt le_rfl hlt
      rw [syncAttempts_eq, if_pos (by omega), he]
      simp only [h4, Bool.false_eq_true, if_false]
      rw [if_neg (show ¬ attempt = retryAttempts by omega)]
      exact ih retryAttempts k (attempt + 1) (some e) (by omega) (by omega) hkn
        (fun j hj1 hj2 => hretry j (by omega) hj2)

/-- **C3** — For every non-empty record list, `syncToCloud` makes at
most the configured number of attempts; if every attempt before `k`
fails retryably then: a 4xx rejection at attempt `k` aborts immediately
with a failure carrying that response's body and no further attempts
(the loop stops at attempt `k`); a success at attempt `k` yields
`success`/`delivered = true` with the full record count; and if all
configured attempts fail retryably, the result is a failure carrying
the last error's response body, after exactly `retryAttempts`
attempts. -/
theorem syncToCloud_retry_policy (outcomes : Nat → AttemptOutcome)
    (retryAttempts : Nat) (attendance : List ProcessedAttendance)
    (hne : attendance ≠ []) :
    (syncToCloud outcomes retryAttempts attendance).2 ≤ retryAttempts ∧
    (∀ k, 1 ≤ k → k ≤ retryAttempts →
      (∀ j, 1 ≤ j → j < k → retryableErr (outcomes j)) →
      (∀ res, outcomes k = .ok res →
        syncToCloud outcomes retryAttempts attendance =
          (⟨true, attendance.length, res.data⟩, k)) ∧
      (∀ e, outcomes k = .err e → is4xx e = true →
        syncToCloud outcomes retryAttempts attendance =
          (⟨false, 0, errBody e⟩, k))) ∧
    ((∀ j, 1 ≤ j → j ≤ retryAttempts → retryableErr (outcomes j)) →
      1 ≤ retryAttempts → ∀ e, outcomes retryAttempts = .err e →
        syncToCloud outcomes retryAttempts attendance =
          (⟨false, 0, errBody e⟩, retryAttempts)) := by
  have hemp : attendance.isEmpty = false := by
    rcases attendance with _ | ⟨a, t⟩
    · exact absurd rfl hne
    · rfl
  unfold syncToCloud
  rw [hemp]
  simp only [Bool.false_eq_true, if_false]
  refine ⟨?_, ?_, ?_⟩
  · exact syncAttempts_attempts_le outcomes attendance.length
      (retryAttempts + 1) retryAttempts 1 none (by omega) (by omega)
  · intro k hk1 hkn hretry
    have hdec := syncAttempts_first_decisive outcomes attendance.length
      k retryAttempts k 1 none (by omega) hk1 hkn
      (fun j hj1 hj2 => hretry j hj1 hj2)
    exact ⟨hdec.1, hdec.2.1⟩
  · intro hretry hn1 e he
    have h4 : is4xx e = false := by
      obtain ⟨e', he', h4'⟩ := hretry retryAttempts hn1 le_rfl
      rw [he] at he'
      cases he'
      exact h4'
    have hdec := syncAttempts_first_decisive outcomes attendance.length
      retryAttempts retryAttempts retryAttempts 1 none (by omega) hn1 le_rfl
      (fun j hj1 hj2 => hretry j hj1 (by omega))
    exact hdec.2.2 e he h4 rfl

theorem syncToCloud_retry_policy_witness :
    syncToCloud flaky50xOutcomes 3 sampleAttendance = (⟨true, 1, some "ack"⟩, 2) ∧
    syncToCloud clientErrorOutcomes 3 sampleAttendance = (⟨false, 0, some "bad request"⟩, 1) :=
  ⟨((syncToCloud_retry_policy flaky50xOutcomes 3 sampleAttendance (by decide)).2.1
      2 (by decide) (by decide)
      (by
        intro j h1 h2
        have hj : j = 1 := by omega
        subst hj
        exact ⟨{ response := some { status := 500, data := some "server error" } }, rfl, rfl⟩)).1
      { status := 200, data := some "ack" } rfl,
    ((syncToCloud_retry_policy clientErrorOutcomes 3 sampleAttendance (by decide)).2.1
      1 (by decide) (by decide) (by intro j h1 h2; omega)).2
      { response := some { status := 400, data := some "bad request" } } rfl rfl⟩

/-- **C8 (bug evidence)** — `#stripTz` strips a trailing `Z`, a trailing
`+HH:MM` offset and sub-seconds, but its second regex is `/\+\d{2}:\d{2}$/`:
a *negative* `-HH:MM` offset is left in the payload verbatim,
contradicting the claim (and the function's own doc comment) that any
timezone suffix is removed. -/
theorem buildPayload_keeps_negative_offset :
    (buildPayload "2024-11-20T14:35:07-03:00" "2024-11-20T18:00:00Z" 100 0).startTime =
      "2024-11-20T14:35:07-03:00" ∧
    (buildPayload "2024-11-20T14:35:07-03:00" "2024-11-20T18:00:00Z" 100 0).endTime =
      "2024-11-20T18:00:00" ∧
    stripTz "2024-11-20T14:35:07+03:00" = "2024-11-20T14:35:07" ∧
    stripTz "2024-11-20T14:35:07.123Z" = "2024-11-20T14:35:07" ∧
    stripTz "2024-11-20T14:35:07-03:00" ≠ "2024-11-20T14:35:07" := by
  refine ⟨rfl, rfl, rfl, rfl, ?_⟩
  decide

/- ================================================================== -/
/-  Digest response composition (C5)                                   -/
/- ================================================================== -/

/-- **C5 (amended)** — For every parsed challenge whose
quality-of-protection value is exactly `auth` or `auth-int`,
`buildDigestAuth` (given the generated client nonce) emits
`response = MD5(HA1:nonce:nc:cnonce:qop:HA2)` with nonce-count fixed at
`"00000001"`; for every other challenge (quality-of-protection absent
*or* any other value) it emits `response = MD5(HA1:nonce:HA2)`; with
`HA1`/`HA2` as in `ha1Of`/`ha2Of`.  The construction is a pure function
of the inputs and the client nonce, so recomputing it reproduces the
emitted response byte-for-byte. -/
theorem buildDigestAuth_response_composition
    (md5 : String → String) (cnonce method uri username password header : String) :
    ((digestParam header "qop" = "auth" ∨ digestParam header "qop" = "auth-int") →
      buildDigestAuth md5 cnonce method uri username password header =
        "Digest username=\"" ++ username ++ "\", realm=\"" ++ digestParam header "realm" ++
          "\", nonce=\"" ++ digestParam header "nonce" ++ "\", uri=\"" ++ uri ++
          "\", algorithm=" ++ algoOf header ++ ", response=\"" ++
          md5 (ha1Of md5 username password header ++ ":" ++ digestParam header "nonce" ++
            ":" ++ "00000001" ++ ":" ++ cnonce ++ ":" ++ digestParam header "qop" ++ ":" ++
            ha2Of md5 method uri) ++ "\"" ++
          (if digestParam header "opaque" = "" then ""
            else ", opaque=\"" ++ digestParam header "opaque" ++ "\"") ++
          (", qop=" ++ digestParam header "qop" ++ ", nc=" ++ "00000001" ++
            ", cnonce=\"" ++ cnonce ++ "\"")) ∧
    (¬ (digestParam header "qop" = "auth" ∨ digestParam header "qop" = "auth-int") →
      buildDigestAuth md5 cnonce method uri username password header =
        "Digest username=\"" ++ username ++ "\", realm=\"" ++ digestParam header "realm" ++
          "\", nonce=\"" ++ digestParam header "nonce" ++ "\", uri=\"" ++ uri ++
          "\", algorithm=" ++ algoOf header ++ ", response=\"" ++
          md5 (ha1Of md5 username password header ++ ":" ++ digestParam header "nonce" ++
            ":" ++ ha2Of md5 method uri) ++ "\"" ++
          (if digestParam header "opaque" = "" then ""
            else ", opaque=\"" ++ digestParam header "opaque" ++ "\"") ++
          "") := by
  constructor
  · intro h
    simp only [buildDigestAuth]
    rw [if_pos h]
    simp only [algoOf, ha1Of, ha2Of]
  · intro h
    simp only [buildDigestAuth]
    rw [if_neg h]
    simp only [algoOf, ha1Of, ha2Of]

theorem buildDigestAuth_response_composition_witness :
    buildDigestAuth (fun s => s) "CN" "GET" "/u" "user" "pw" sampleChallengeQop =
      "Digest username=\"" ++ "user" ++ "\", realm=\"" ++ digestParam sampleChallengeQop "realm" ++
        "\", nonce=\"" ++ digestParam sampleChallengeQop "nonce" ++ "\", uri=\"" ++ "/u" ++
        "\", algorithm=" ++ algoOf sampleChallengeQop ++ ", response=\"" ++
        (fun s => s) (ha1Of (fun s => s) "user" "pw" sampleChallengeQop ++ ":" ++
          digestParam sampleChallengeQop "nonce" ++ ":" ++ "00000001" ++ ":" ++ "CN" ++ ":" ++
          digestParam sampleChallengeQop "qop" ++ ":" ++ ha2Of (fun s => s) "GET" "/u") ++ "\"" ++
        (if digestParam sampleChallengeQop "opaque" = "" then ""
          else ", opaque=\"" ++ digestParam sampleChallengeQop "opaque" ++ "\"") ++
        (", qop=" ++ digestParam sampleChallengeQop "qop" ++ ", nc=" ++ "00000001" ++
          ", cnonce=\"" ++ "CN" ++ "\"") ∧
    buildDigestAuth (fun s => s) "CN" "GET" "/u" "user" "pw" sampleChallengeNoQop =
      "Digest username=\"" ++ "user" ++ "\", realm=\"" ++ digestParam sampleChallengeNoQop "realm" ++
        "\", nonce=\"" ++ digestParam sampleChallengeNoQop "nonce" ++ "\", uri=\"" ++ "/u" ++
        "\", algorithm=" ++ algoOf sampleChallengeNoQop ++ ", response=\"" ++
        (fun s => s) (ha1Of (fun s => s) "user" "pw" sampleChallengeNoQop ++ ":" ++
          digestParam sampleChallengeNoQop "nonce" ++ ":" ++ ha2Of (fun s => s) "GET" "/u") ++ "\"" ++
        (if digestParam sampleChallengeNoQop "opaque" = "" then ""
          else ", opaque=\"" ++ digestParam sampleChallengeNoQop "opaque" ++ "\"") ++
        "" :=
  ⟨(buildDigestAuth_response_composition (fun s => s) "CN" "GET" "/u" "user" "pw"
      sampleChallengeQop).1 (by left; decide),
    (buildDigestAuth_response_composition (fun s => s) "CN" "GET" "/u" "user" "pw"
      sampleChallengeNoQop).2 (by decide)⟩

/-- **C5 (counterexample)** — a challenge whose quality-of-protection
value is present but equals `"x"` (neither `auth` nor `auth-int`):
the source's `if (qop === "auth" || qop === "auth-int")` sends it down
the no-qop branch, so the emitted response is `MD5(HA1:nonce:HA2)`
without any `nc`/`cnonce`, not the `MD5(HA1:nonce:nc:cnonce:qop:HA2)`
form the claim requires for every present qop (shown here with `md5`
instantiated as the identity tag). -/
theorem buildDigestAuth_qop_present_counterexample :
    digestParam "Digest realm=\"r\", nonce=\"n\", qop=\"x\"" "qop" ≠ "" ∧
    buildDigestAuth (fun s => s) "CN" "GET" "/u" "user" "pw"
        "Digest realm=\"r\", nonce=\"n\", qop=\"x\"" =
      "Digest username=\"user\", realm=\"r\", nonce=\"n\", uri=\"/u\", algorithm=MD5, response=\"user:r:pw:n:GET:/u\"" ∧
    buildDigestAuth (fun s => s) "CN" "GET" "/u" "user" "pw"
        "Digest realm=\"r\", nonce=\"n\", qop=\"x\"" ≠
      "Digest username=\"user\", realm=\"r\", nonce=\"n\", uri=\"/u\", algorithm=MD5, response=\"user:r:pw:n:00000001:CN:x:GET:/u\", qop=x, nc=00000001, cnonce=\"CN\"" := by
  refine ⟨by decide, by decide, by decide⟩

/-- **C6** — For every candidate address and every transport or protocol
outcome of the four HTTP exchanges (rejection — timeout, connection
refused, TLS failure, 5xx —, non-challenge response, missing
`WWW-Authenticate`, non-2xx authenticated status, unparseable body),
`probeDevice` returns a device identity or `none` ("no identity") and
never propagates an exception: its result is always `Except.ok`, for
every environment, even though the attempt bodies themselves can throw
(`probeAttempt` returns `.error` on transport failures and
`JSON.parse` failures). -/
theorem probeDevice_never_throws
    (parseXml : Option (String → Except Unit DeviceInfoFields))
    (md5 : String → String) (cnonce username password : String) (env : ProbeEnv) :
    ∃ o : Option DeviceInfo,
      probeDevice parseXml md5 cnonce username password env = Except.ok o := by
  unfold probeDevice
  cases h1 : probeAttempt parseXml md5 cnonce username password
      "/ISAPI/System/deviceInfo?format=json" env.json1 env.json2 with
  | error e1 =>
    cases h2 : probeAttempt parseXml md5 cnonce username password
        "/ISAPI/System/deviceInfo" env.xml1 env.xml2 with
    | error e2 => exact ⟨none, rfl⟩
    | ok o2 =>
      cases o2 with
      | none => exact ⟨none, rfl⟩
      | some info => exact ⟨some info, rfl⟩
  | ok o1 =>
    cases o1 with
    | none =>
      cases h2 : probeAttempt parseXml md5 cnonce username password
          "/ISAPI/System/deviceInfo" env.xml1 env.xml2 with
      | error e2 => exact ⟨none, rfl⟩
      | ok o2 =>
        cases o2 with
        | none => exact ⟨none, rfl⟩
        | some info => exact ⟨some info, rfl⟩
    | some info => exact ⟨some info, rfl⟩

/- ================================================================== -/
/-  JS `includes` agrees with list infixes                             -/
/- ================================================================== -/

theorem startsWithChars_iff :
    ∀ (pat cs : List Char), startsWithChars pat cs = true ↔ pat <+: cs := by
  intro pat
  induction pat with
  | nil =>
    intro cs
    simp [startsWithChars, List.nil_prefix]
  | cons a as ih =>
    intro cs
    cases cs with
    | nil =>
      simp [startsWithChars]
    | cons b bs =>
      simp only [startsWithChars, Bool.and_eq_true, decide_eq_true_eq,
        List.cons_prefix_cons]
      exact and_congr Iff.rfl (ih bs)

theorem occursChars_iff :
    ∀ (cs pat : List Char), occursChars pat cs = true ↔ pat <:+: cs := by
  intro cs
  induction cs with
  | nil =>
    intro pat
    rw [occursChars, startsWithChars_iff]
    constructor
    · intro h
      rw [List.prefix_nil] at h
      rw [h]
    · intro h
      rw [List.infix_nil] at h
      rw [h]
  | cons c cs ih =>
    intro pat
    rw [occursChars]
    rw [Bool.or_eq_true, startsWithChars_iff, ih, List.infix_cons_iff]

theorem jsIncludes_iff (s sub : String) :
    jsIncludes s sub = true ↔ sub.data <:+: s.data :=
  occursChars_iff s.data sub.data

/-- **C9** — For every normalized device identity (which always carries
a truthy `_raw` payload) and every non-empty target name,
`isTargetDevice` returns `true` iff some populated field among
`deviceName`, `model`, `serialNumber`, `macAddress` — case-insensitively
trimmed — is equal to, a superstring of, or a substring of the
(case-insensitively trimmed) target name, or, failing all field
comparisons, the raw payload contains the target name as a
case-insensitive substring. -/
theorem isTargetDevice_iff (stringify : DeviceInfoFields → String)
    (info : DeviceInfo) (targetName : String)
    (hts : targetName ≠ "") (hraw : rawTruthy info.raw = true) :
    (isTargetDevice stringify info targetName = true ↔
      ((∃ v ∈ [info.deviceName, info.model, info.serialNumber, info.macAddress].filterMap id,
          v ≠ "" ∧
          (jsTrim (jsToLower v) = jsTrim (jsToLower targetName) ∨
            (jsTrim (jsToLower targetName)).data <:+: (jsTrim (jsToLower v)).data ∨
            (jsTrim (jsToLower v)).data <:+: (jsTrim (jsToLower targetName)).data)) ∨
        ((¬ ∃ v ∈ [info.deviceName, info.model, info.serialNumber, info.macAddress].filterMap id,
            v ≠ "" ∧
            (jsTrim (jsToLower v) = jsTrim (jsToLower targetName) ∨
              (jsTrim (jsToLower targetName)).data <:+: (jsTrim (jsToLower v)).data ∨
              (jsTrim (jsToLower v)).data <:+: (jsTrim (jsToLower targetName)).data)) ∧
          (jsTrim (jsToLower targetName)).data <:+:
            (jsToLower (rawString stringify info.raw)).data))) := by
  have hfm_iff :
      ((([info.deviceName, info.model, info.serialNumber, info.macAddress].filterMap id).filter
          (fun v => v ≠ "")).map fun v => jsTrim (jsToLower v)).any
        (fun c => c = jsTrim (jsToLower targetName) ||
          jsIncludes c (jsTrim (jsToLower targetName)) ||
          jsIncludes (jsTrim (jsToLower targetName)) c) = true ↔
      (∃ v ∈ [info.deviceName, info.model, info.serialNumber, info.macAddress].filterMap id,
        v ≠ "" ∧
        (jsTrim (jsToLower v) = jsTrim (jsToLower targetName) ∨
          (jsTrim (jsToLower targetName)).data <:+: (jsTrim (jsToLower v)).data ∨
          (jsTrim (jsToLower v)).data <:+: (jsTrim (jsToLower targetName)).data)) := by
    rw [List.any_eq_true]
    constructor
    · rintro ⟨c, hc, hcp⟩
      rw [List.mem_map] at hc
      obtain ⟨v, hvf, rfl⟩ := hc
      rw [List.mem_filter] at hvf
      obtain ⟨hvm, hvne⟩ := hvf
      refine ⟨v, hvm, by simpa using hvne, ?_⟩
      simp only [Bool.or_eq_true, decide_eq_true_eq, jsIncludes_iff] at hcp
      tauto
    · rintro ⟨v, hvm, hvne, hvp⟩
      refine ⟨jsTrim (jsToLower v),
        List.mem_map.mpr ⟨v, List.mem_filter.mpr ⟨hvm, by simpa using hvne⟩, rfl⟩, ?_⟩
      simp only [Bool.or_eq_true, decide_eq_true_eq, jsIncludes_iff]
      tauto
  unfold isTargetDevice
  rw [if_neg hts]
  by_cases hfm :
      ((([info.deviceName, info.model, info.serialNumber, info.macAddress].filterMap id).filter
          (fun v => v ≠ "")).map fun v => jsTrim (jsToLower v)).any
        (fun c => c = jsTrim (jsToLower targetName) ||
          jsIncludes c (jsTrim (jsToLower targetName)) ||
          jsIncludes (jsTrim (jsToLower targetName)) c) = true
  · rw [if_pos hfm]
    exact iff_of_true rfl (Or.inl (hfm_iff.mp hfm))
  · rw [if_neg hfm, if_pos hraw]
    constructor
    · intro h
      exact Or.inr ⟨fun hex => hfm (hfm_iff.mpr hex),
        (jsIncludes_iff _ _).mp h⟩
    · rintro (hex | ⟨-, hinc⟩)
      · exact absurd (hfm_iff.mpr hex) hfm
      · exact (jsIncludes_iff _ _).mpr hinc

theorem isTargetDevice_iff_witness :
    (isTargetDevice (fun _ => "") sampleIdentity "DS-K1T342" = true ↔
      ((∃ v ∈ [sampleIdentity.deviceName, sampleIdentity.model, sampleIdentity.serialNumber,
            sampleIdentity.macAddress].filterMap id,
          v ≠ "" ∧
          (jsTrim (jsToLower v) = jsTrim (jsToLower "DS-K1T342") ∨
            (jsTrim (jsToLower "DS-K1T342")).data <:+: (jsTrim (jsToLower v)).data ∨
            (jsTrim (jsToLower v)).data <:+: (jsTrim (jsToLower "DS-K1T342")).data)) ∨
        ((¬ ∃ v ∈ [sampleIdentity.deviceName, sampleIdentity.model, sampleIdentity.serialNumber,
              sampleIdentity.macAddress].filterMap id,
            v ≠ "" ∧
            (jsTrim (jsToLower v) = jsTrim (jsToLower "DS-K1T342") ∨
              (jsTrim (jsToLower "DS-K1T342")).data <:+: (jsTrim (jsToLower v)).data ∨
              (jsTrim (jsToLower v)).data <:+: (jsTrim (jsToLower "DS-K1T342")).data)) ∧
          (jsTrim (jsToLower "DS-K1T342")).data <:+:
            (jsToLower (rawString (fun _ => "") sampleIdentity.raw)).data))) :=
  isTargetDevice_iff (fun _ => "") sampleIdentity "DS-K1T342" (by decide) (by decide)
